import Mathlib

/-!
Verification of the multi-tenant data access layer of the bookbuddy-app
repository (src/services/database.ts and src/services/supabase.ts).

The embedding models:
- records as association lists from column names to values;
- the backing-store query builder as a list of query steps, built exactly
  in the order the source composes its calls;
- the run semantics of a built query over a list of rows (filters narrow,
  order permutes, limit takes a prefix, range takes a window), following
  PostgREST behaviour for the builder operations the source uses;
- the PostgREST single-row coercion: exactly one row yields data, any
  other cardinality yields a null result with a structured error.

The process tenant identifier (APP_ID in src/services/supabase.ts) is an
explicit parameter of every operation; its JavaScript truthiness test is
modelled as the string being non-empty.
-/

namespace BookBuddy

/-- A database value: strings, integers, booleans, or arrays of values. -/
inductive Value where
  | str (s : String)
  | num (n : Int)
  | boolV (b : Bool)
  | arr (vs : List Value)

mutual

/-- Decidable equality for values (the nested list forces a manual
definition). -/
def valueDecEq : (a b : Value) → Decidable (a = b)
  | .str a, .str b =>
    if h : a = b then isTrue (by rw [h]) else isFalse (by simp [h])
  | .num a, .num b =>
    if h : a = b then isTrue (by rw [h]) else isFalse (by simp [h])
  | .boolV a, .boolV b =>
    if h : a = b then isTrue (by rw [h]) else isFalse (by simp [h])
  | .arr as, .arr bs =>
    match valueListDecEq as bs with
    | isTrue h => isTrue (by rw [h])
    | isFalse h => isFalse (by simp [h])
  | .str _, .num _ => isFalse (fun h => Value.noConfusion h)
  | .str _, .boolV _ => isFalse (fun h => Value.noConfusion h)
  | .str _, .arr _ => isFalse (fun h => Value.noConfusion h)
  | .num _, .str _ => isFalse (fun h => Value.noConfusion h)
  | .num _, .boolV _ => isFalse (fun h => Value.noConfusion h)
  | .num _, .arr _ => isFalse (fun h => Value.noConfusion h)
  | .boolV _, .str _ => isFalse (fun h => Value.noConfusion h)
  | .boolV _, .num _ => isFalse (fun h => Value.noConfusion h)
  | .boolV _, .arr _ => isFalse (fun h => Value.noConfusion h)
  | .arr _, .str _ => isFalse (fun h => Value.noConfusion h)
  | .arr _, .num _ => isFalse (fun h => Value.noConfusion h)
  | .arr _, .boolV _ => isFalse (fun h => Value.noConfusion h)

/-- Decidable equality for lists of values. -/
def valueListDecEq : (as bs : List Value) → Decidable (as = bs)
  | [], [] => isTrue rfl
  | a :: as, b :: bs =>
    match valueDecEq a b, valueListDecEq as bs with
    | isTrue h1, isTrue h2 => isTrue (by rw [h1, h2])
    | isFalse h1, _ => isFalse (by simp [h1])
    | _, isFalse h2 => isFalse (by simp [h2])
  | [], _ :: _ => isFalse (fun h => List.noConfusion h)
  | _ :: _, [] => isFalse (fun h => List.noConfusion h)

end

instance : DecidableEq Value := valueDecEq

/-- A record is an association list from column names to values; lookup
takes the first binding, matching JavaScript object field access. -/
abbrev Rec := List (String × Value)

/-- Column access on a record: first binding wins. -/
def getCol : Rec → String → Option Value
  | [], _ => none
  | (k, v) :: r, c => if k = c then some v else getCol r c

/-- Setting a column on a record, observationally the JavaScript spread
update: the named column now maps to the new value, all other columns are
unchanged under getCol. -/
def objSet (r : Rec) (c : String) (v : Value) : Rec :=
  r.filter (fun p => decide (p.1 ≠ c)) ++ [(c, v)]

/-- A caller-supplied filter triple, as in the QueryOptions.filters array
of src/services/database.ts. The operator is an arbitrary string so that
the unrecognized-operator branch of applyFilter is representable. -/
structure Filter where
  column : String
  operator : String
  value : Value
deriving DecidableEq

/-- One step of a composed PostgREST query, in the order the builder
methods were invoked. -/
inductive QueryStep where
  | eqF (column : String) (value : Value)
  | neqF (column : String) (value : Value)
  | gtF (column : String) (value : Value)
  | gteF (column : String) (value : Value)
  | ltF (column : String) (value : Value)
  | lteF (column : String) (value : Value)
  | likeF (column : String) (value : Value)
  | ilikeF (column : String) (value : Value)
  | inF (column : String) (value : Value)
  | containsF (column : String) (value : Value)
  | orderF (column : String) (ascending : Bool)
  | limitF (n : Nat)
  | rangeF (lo hi : Nat)
deriving DecidableEq

/-- A built query: target table, select projection, whether an exact count
was requested, and the builder steps in invocation order. -/
structure Query where
  table : String
  select : String
  countExact : Bool
  steps : List QueryStep
deriving DecidableEq

namespace Query

def push (q : Query) (s : QueryStep) : Query :=
  ⟨q.table, q.select, q.countExact, q.steps ++ [s]⟩

def eq (q : Query) (c : String) (v : Value) : Query := q.push (.eqF c v)

def neq (q : Query) (c : String) (v : Value) : Query := q.push (.neqF c v)

def gt (q : Query) (c : String) (v : Value) : Query := q.push (.gtF c v)

def gte (q : Query) (c : String) (v : Value) : Query := q.push (.gteF c v)

def lt (q : Query) (c : String) (v : Value) : Query := q.push (.ltF c v)

def lte (q : Query) (c : String) (v : Value) : Query := q.push (.lteF c v)

def like (q : Query) (c : String) (v : Value) : Query := q.push (.likeF c v)

def ilike (q : Query) (c : String) (v : Value) : Query := q.push (.ilikeF c v)

def inOp (q : Query) (c : String) (v : Value) : Query := q.push (.inF c v)

def containsOp (q : Query) (c : String) (v : Value) : Query := q.push (.containsF c v)

def order (q : Query) (c : String) (asc : Bool) : Query := q.push (.orderF c asc)

def limit (q : Query) (n : Nat) : Query := q.push (.limitF n)

def range (q : Query) (lo hi : Nat) : Query := q.push (.rangeF lo hi)

end Query

/-- The fixed shared-table set of src/services/database.ts line 38. -/
def SHARED_TABLES : List String := ["profiles", "app_registry", "user_app_context"]

/-- JavaScript truthiness of an optional string with a default, as in the
source expressions of the form (options.select || defaultValue). -/
def strOr (o : Option String) (d : String) : String :=
  match o with
  | some s => if s ≠ "" then s else d
  | none => d

/-- JavaScript truthiness of an optional number: undefined and 0 are falsy. -/
def truthyNat : Option Nat → Bool
  | none => false
  | some n => n != 0

/-- JavaScript (o || d) on an optional number: the value unless it is
undefined or 0, otherwise the default. -/
def orNat (o : Option Nat) (d : Nat) : Nat :=
  match o with
  | some n => if n ≠ 0 then n else d
  | none => d

/-- Spec-side table classification (spec section 4.1): a table is isolated
unless it is in the fixed shared-table set. -/
def isIsolated (table : String) : Bool := !SHARED_TABLES.contains table

/-- Spec-side injection predicate (spec section 4.1): isolated table, the
override flag not set, and a non-empty configured tenant identifier. -/
def shouldInject (table : String) (overrideFlag : Bool) (appId : String) : Bool :=
  isIsolated table && !overrideFlag && (appId != "")

/-- Direct translation of the applyFilter helper of
src/services/database.ts: strict dispatch on the operator string, with the
default branch returning the query unchanged. -/
def applyFilter (q : Query) (f : Filter) : Query :=
  match f.operator with
  | "eq" => q.eq f.column f.value
  | "neq" => q.neq f.column f.value
  | "gt" => q.gt f.column f.value
  | "gte" => q.gte f.column f.value
  | "lt" => q.lt f.column f.value
  | "lte" => q.lte f.column f.value
  | "like" => q.like f.column f.value
  | "ilike" => q.ilike f.column f.value
  | "in" => q.inOp f.column f.value
  | "contains" => q.containsOp f.column f.value
  | _ => q

/-- Single-column ordering request, as in QueryOptions.orderBy. -/
structure OrderBy where
  column : String
  ascending : Option Bool
deriving DecidableEq

/-- The QueryOptions bag of src/services/database.ts. -/
structure QueryOptions where
  select : Option String
  orderBy : Option OrderBy
  limit : Option Nat
  offset : Option Nat
  filters : Option (List Filter)
  skipAppFilter : Bool
deriving DecidableEq

/-- Translation of the query-building part of fetchAll: base select with
exact count, then the conditional tenant filter, then caller filters in
order, then ordering, then limit, then the offset range with the
JavaScript default (options.limit || 10). -/
def fetchAllQuery (appId table : String) (opts : QueryOptions) : Query :=
  let q : Query := ⟨table, strOr opts.select "*", true, []⟩
  let q := if appId != "" && !opts.skipAppFilter && !SHARED_TABLES.contains table then
      q.eq "app_id" (Value.str appId)
    else q
  let q := match opts.filters with
    | some fs => fs.foldl applyFilter q
    | none => q
  let q := match opts.orderBy with
    | some ob => q.order ob.column (ob.ascending.getD true)
    | none => q
  let q := if truthyNat opts.limit then q.limit (opts.limit.getD 0) else q
  if truthyNat opts.offset then
    q.range (opts.offset.getD 0) (opts.offset.getD 0 + orNat opts.limit 10 - 1)
  else q

/-- SQL LIKE matching over character lists: percent matches any sequence,
underscore any single character. -/
def likeChars : List Char → List Char → Bool
  | [], s => s.isEmpty
  | '%' :: ps, s => s.tails.any (fun t => likeChars ps t)
  | '_' :: ps, s =>
    match s with
    | [] => false
    | _ :: s' => likeChars ps s'
  | p :: ps, s =>
    match s with
    | [] => false
    | c :: s' => p == c && likeChars ps s'

/-- SQL LIKE on strings. -/
def likeMatch (pat s : String) : Bool := likeChars pat.data s.data

/-- Lower-casing for the case-insensitive match. -/
def lowerStr (s : String) : String := s.map Char.toLower

/-- Strict comparison between values, used by the range operators:
numbers by integer order, strings lexicographically, booleans with false
below true; values of different shapes are incomparable. -/
def valLt : Value → Value → Bool
  | .num a, .num b => decide (a < b)
  | .str a, .str b => decide (a < b)
  | .boolV a, .boolV b => !a && b
  | _, _ => false

/-- Row predicate of one filter step; order, limit and range steps are not
row predicates and hold trivially. SQL three-valued logic on a missing
column collapses to false for every operator. -/
def rowPred (s : QueryStep) (r : Rec) : Bool :=
  match s with
  | .eqF c v => decide (getCol r c = some v)
  | .neqF c v =>
    match getCol r c with
    | some w => decide (w ≠ v)
    | none => false
  | .gtF c v =>
    match getCol r c with
    | some w => valLt v w
    | none => false
  | .gteF c v =>
    match getCol r c with
    | some w => valLt v w || decide (w = v)
    | none => false
  | .ltF c v =>
    match getCol r c with
    | some w => valLt w v
    | none => false
  | .lteF c v =>
    match getCol r c with
    | some w => valLt w v || decide (w = v)
    | none => false
  | .likeF c v =>
    match getCol r c, v with
    | some (.str s), .str pat => likeMatch pat s
    | _, _ => false
  | .ilikeF c v =>
    match getCol r c, v with
    | some (.str s), .str pat => likeMatch (lowerStr pat) (lowerStr s)
    | _, _ => false
  | .inF c v =>
    match getCol r c, v with
    | some w, .arr vs => vs.any (fun x => decide (x = w))
    | _, _ => false
  | .containsF c v =>
    match getCol r c, v with
    | some (.arr ws), .arr vs => vs.all (fun x => ws.any (fun w => decide (w = x)))
    | _, _ => false
  | .orderF _ _ => true
  | .limitF _ => true
  | .rangeF _ _ => true

/-- Total comparison between optional column values for sorting; missing
values sort first. -/
def optValLe : Option Value → Option Value → Bool
  | none, _ => true
  | some _, none => false
  | some a, some b => valLt a b || decide (a = b)

/-- Row ordering for an order step on a given column and direction. -/
def recLe (c : String) (asc : Bool) (a b : Rec) : Bool :=
  if asc then optValLe (getCol a c) (getCol b c) else optValLe (getCol b c) (getCol a c)

/-- Run one query step over a list of rows: filter steps narrow the rows,
an order step sorts them, a limit step takes a prefix, and a range step
takes the inclusive window of zero-indexed positions. -/
def runStep (rows : List Rec) (s : QueryStep) : List Rec :=
  match s with
  | .orderF c asc => List.insertionSort (fun a b => recLe c asc a b = true) rows
  | .limitF n => rows.take n
  | .rangeF lo hi => (rows.drop lo).take (hi + 1 - lo)
  | s => rows.filter (rowPred s)

/-- Run all steps of a built query, in invocation order. -/
def runSteps (steps : List QueryStep) (rows : List Rec) : List Rec :=
  steps.foldl runStep rows

/-- A structured backing-store error. -/
structure PgError where
  code : String
  message : String
deriving DecidableEq

/-- The PostgREST error returned by a single-row coercion that did not see
exactly one row. -/
def pgrstNotFound : PgError :=
  ⟨"PGRST116", "JSON object requested, multiple (or no) rows returned"⟩

/-- The DatabaseResult shape of src/services/database.ts. -/
structure DbSingleResult where
  data : Option Rec
  error : Option PgError
deriving DecidableEq

/-- The DatabaseListResult shape of src/services/database.ts. -/
structure DbListResult where
  data : Option (List Rec)
  error : Option PgError
  count : Option Nat
deriving DecidableEq

/-- PostgREST single-row coercion: exactly one row yields it as data with
no error; zero or several rows yield a null result and a structured error. -/
def single (rows : List Rec) : DbSingleResult :=
  match rows with
  | [r] => ⟨some r, none⟩
  | _ => ⟨none, some pgrstNotFound⟩

/-- The backing store: an association of table names to their rows. -/
abbrev Store := List (String × List Rec)

/-- Rows of a table in the store; an unknown table is empty. -/
def storeRows (store : Store) (table : String) : List Rec :=
  (store.lookup table).getD []

/-- Steps that filter rows, as opposed to ordering or pagination; the
exact count of a counted select is taken over these only. -/
def isRowFilter : QueryStep → Bool
  | .orderF _ _ => false
  | .limitF _ => false
  | .rangeF _ _ => false
  | _ => true

/-- Full fetchAll: run the built query over the table rows; the exact
count covers the filtered rows before ordering and pagination. -/
def fetchAll (appId table : String) (opts : QueryOptions) (store : Store) : DbListResult :=
  let q := fetchAllQuery appId table opts
  let base := storeRows store table
  ⟨some (runSteps q.steps base), none,
    some (runSteps (q.steps.filter isRowFilter) base).length⟩

/-- The options bag of fetchById and update. -/
structure ByIdOptions where
  select : Option String
  idColumn : Option String
  skipAppFilter : Bool
deriving DecidableEq

/-- Translation of the query-building part of fetchById: select, then an
equals filter on the id column (with default column id), then the
conditional tenant filter. -/
def fetchByIdQuery (appId table : String) (id : Value) (opts : ByIdOptions) : Query :=
  let q : Query := ⟨table, strOr opts.select "*", false, []⟩
  let q := q.eq (strOr opts.idColumn "id") id
  if appId != "" && !opts.skipAppFilter && !SHARED_TABLES.contains table then
    q.eq "app_id" (Value.str appId)
  else q

/-- The rows matched by a fetchById call after tenant scoping. -/
def fetchByIdMatches (appId table : String) (id : Value) (opts : ByIdOptions)
    (store : Store) : List Rec :=
  runSteps (fetchByIdQuery appId table id opts).steps (storeRows store table)

/-- Full fetchById: the matched rows pushed through the single-row
coercion. -/
def fetchById (appId table : String) (id : Value) (opts : ByIdOptions)
    (store : Store) : DbSingleResult :=
  single (fetchByIdMatches appId table id opts store)

/-- Tenant stamping, the JavaScript spread with app_id written last. -/
def stampAppId (record : Rec) (appId : String) : Rec :=
  objSet record "app_id" (Value.str appId)

/-- The record create submits to the backing store: the caller record with
the tenant identifier stamped when the tenant condition of
src/services/database.ts line 117 holds. -/
def createSubmitted (appId table : String) (record : Rec) (skip : Bool) : Rec :=
  if appId != "" && !skip && !SHARED_TABLES.contains table then
    stampAppId record appId
  else record

/-- Full create: append the submitted record to the table rows and return
it as the inserted row. -/
def create (appId table : String) (record : Rec) (skip : Bool)
    (rows : List Rec) : List Rec × DbSingleResult :=
  let payload := createSubmitted appId table record skip
  (rows ++ [payload], ⟨some payload, none⟩)

/-- The records createMany submits: the stamping rule applied uniformly,
from src/services/database.ts line 139. -/
def createManySubmitted (appId table : String) (records : List Rec) (skip : Bool) :
    List Rec :=
  if appId != "" && !skip && !SHARED_TABLES.contains table then
    records.map (fun r => stampAppId r appId)
  else records

/-- Translation of the filter-building part of update: an equals filter on
the id column, then the conditional tenant filter. -/
def updateQuery (appId table : String) (id : Value) (opts : ByIdOptions) : Query :=
  let q : Query := ⟨table, strOr opts.select "*", false, []⟩
  let q := q.eq (strOr opts.idColumn "id") id
  if appId != "" && !opts.skipAppFilter && !SHARED_TABLES.contains table then
    q.eq "app_id" (Value.str appId)
  else q

/-- The rows matched by an update call after tenant scoping. -/
def updateMatches (appId table : String) (id : Value) (opts : ByIdOptions)
    (store : Store) : List Rec :=
  runSteps (updateQuery appId table id opts).steps (storeRows store table)

/-- Applying an update object to a row, field by field. -/
def applyUpdates (updates : Rec) (r : Rec) : Rec :=
  updates.foldl (fun acc p => objSet acc p.1 p.2) r

/-- Full update: the matched rows are updated and the updated rows pushed
through the single-row coercion, as the source chains select and single
after the update. -/
def update (appId table : String) (id : Value) (updates : Rec) (opts : ByIdOptions)
    (store : Store) : DbSingleResult :=
  single ((updateMatches appId table id opts store).map (applyUpdates updates))

/-- Translation of the filter-building part of updateWhere: the
conditional tenant filter first, then the caller filters. -/
def updateWhereQuery (appId table : String) (filters : Option (List Filter))
    (sel : Option String) (skip : Bool) : Query :=
  let q : Query := ⟨table, strOr sel "*", false, []⟩
  let q := if appId != "" && !skip && !SHARED_TABLES.contains table then
      q.eq "app_id" (Value.str appId)
    else q
  match filters with
  | some fs => fs.foldl applyFilter q
  | none => q

/-- Translation of the filter-building part of remove: an equals filter on
the id column, then the conditional tenant filter. -/
def removeQuery (appId table : String) (id : Value) (idColumn : Option String)
    (skip : Bool) : Query :=
  let q : Query := ⟨table, "", false, []⟩
  let q := q.eq (strOr idColumn "id") id
  if appId != "" && !skip && !SHARED_TABLES.contains table then
    q.eq "app_id" (Value.str appId)
  else q

/-- The rows a remove call matches: those satisfying every filter of the
built delete query. -/
def removeMatches (appId table : String) (id : Value) (idColumn : Option String)
    (skip : Bool) (rows : List Rec) : List Rec :=
  rows.filter (fun r => (removeQuery appId table id idColumn skip).steps.all
    (fun s => rowPred s r))

/-- Full remove: the matched rows are deleted; a bare PostgREST delete
reports no error whatever the matched count, so the error component is
null. -/
def remove (appId table : String) (id : Value) (idColumn : Option String)
    (skip : Bool) (rows : List Rec) : List Rec × Option PgError :=
  (rows.filter (fun r => !((removeQuery appId table id idColumn skip).steps.all
    (fun s => rowPred s r))), none)

/-- Translation of the filter-building part of removeWhere: the
conditional tenant filter first, then the caller filters. -/
def removeWhereQuery (appId table : String) (filters : Option (List Filter))
    (skip : Bool) : Query :=
  let q : Query := ⟨table, "", false, []⟩
  let q := if appId != "" && !skip && !SHARED_TABLES.contains table then
      q.eq "app_id" (Value.str appId)
    else q
  match filters with
  | some fs => fs.foldl applyFilter q
  | none => q

/-- The record upsert submits to the backing store, from
src/services/database.ts line 258. -/
def upsertSubmitted (appId table : String) (record : Rec) (skip : Bool) : Rec :=
  if appId != "" && !skip && !SHARED_TABLES.contains table then
    stampAppId record appId
  else record

/-- The subscription options bag of subscribeToTable. -/
structure SubOptions where
  event : Option String
  skipAppFilter : Bool
deriving DecidableEq

/-- The channel configuration a subscribeToTable call hands to the
change-event stream. -/
structure SubConfig where
  channelName : String
  event : String
  table : String
  filter : Option String
deriving DecidableEq

/-- Translation of subscribeToTable of src/services/database.ts: the
conditional server-side filter expression, the channel named after the
table and the tenant identifier, and the event kind defaulting to all. -/
def subscribeToTable (appId table : String) (opts : SubOptions) : SubConfig :=
  let filter := if !opts.skipAppFilter && !SHARED_TABLES.contains table && appId != "" then
      some ("app_id=eq." ++ appId)
    else none
  ⟨table ++ "_changes_" ++ appId, strOr opts.event "*", table, filter⟩

/-! Canonical step segments, used to state how every operation lays out
its query: the tenant segment, the caller filter segment, and the
ordering and pagination segments of fetchAll. -/

/-- The tenant segment of a query: one equals step on the tenant column
exactly when injection applies. -/
def tenantSteps (appId table : String) (skip : Bool) : List QueryStep :=
  if shouldInject table skip appId then [QueryStep.eqF "app_id" (Value.str appId)] else []

/-- The canonical step of one caller filter: the matching predicate step,
or nothing for an unrecognized operator. -/
def filterStep (f : Filter) : Option QueryStep :=
  match f.operator with
  | "eq" => some (.eqF f.column f.value)
  | "neq" => some (.neqF f.column f.value)
  | "gt" => some (.gtF f.column f.value)
  | "gte" => some (.gteF f.column f.value)
  | "lt" => some (.ltF f.column f.value)
  | "lte" => some (.lteF f.column f.value)
  | "like" => some (.likeF f.column f.value)
  | "ilike" => some (.ilikeF f.column f.value)
  | "in" => some (.inF f.column f.value)
  | "contains" => some (.containsF f.column f.value)
  | _ => none

/-- The caller filter segment: the canonical steps of the supplied
filters, in order. -/
def callerFilterSteps (filters : Option (List Filter)) : List QueryStep :=
  (filters.getD []).filterMap filterStep

/-- The ordering segment of fetchAll. -/
def orderSteps (opts : QueryOptions) : List QueryStep :=
  match opts.orderBy with
  | some ob => [.orderF ob.column (ob.ascending.getD true)]
  | none => []

/-- The limit segment of fetchAll. -/
def limitSteps (opts : QueryOptions) : List QueryStep :=
  if truthyNat opts.limit then [.limitF (opts.limit.getD 0)] else []

/-- The offset segment of fetchAll: the inclusive range with the default
page size of 10 substituted for an absent limit. -/
def rangeSteps (opts : QueryOptions) : List QueryStep :=
  if truthyNat opts.offset then
    [.rangeF (opts.offset.getD 0) (opts.offset.getD 0 + orNat opts.limit 10 - 1)]
  else []

/-! Helper lemmas about the builder and the canonical segments. -/

theorem steps_push (q : Query) (s : QueryStep) : (q.push s).steps = q.steps ++ [s] := rfl

theorem inject_cond (appId table : String) (skip : Bool) :
    (appId != "" && !skip && !SHARED_TABLES.contains table)
      = shouldInject table skip appId := by
  unfold shouldInject isIsolated
  cases h1 : appId != "" <;> cases skip <;> cases h2 : SHARED_TABLES.contains table <;>
    simp [h1, h2]

theorem sub_cond (appId table : String) (skip : Bool) :
    (!skip && !SHARED_TABLES.contains table && appId != "")
      = shouldInject table skip appId := by
  unfold shouldInject isIsolated
  cases h1 : appId != "" <;> cases skip <;> cases h2 : SHARED_TABLES.contains table <;>
    simp [h1, h2]

theorem applyFilter_steps (q : Query) (f : Filter) :
    (applyFilter q f).steps = q.steps ++ (filterStep f).toList := by
  unfold applyFilter filterStep
  split <;> simp_all [Query.eq, Query.neq, Query.gt, Query.gte, Query.lt, Query.lte,
    Query.like, Query.ilike, Query.inOp, Query.containsOp, Query.push]

theorem foldl_applyFilter_steps (fs : List Filter) (q : Query) :
    (fs.foldl applyFilter q).steps = q.steps ++ fs.filterMap filterStep := by
  induction fs generalizing q with
  | nil => simp
  | cons f fs ih =>
    rw [List.foldl_cons, ih, applyFilter_steps]
    cases h : filterStep f <;> simp [h, List.filterMap_cons]

theorem fetchAllQuery_steps (appId table : String) (opts : QueryOptions) :
    (fetchAllQuery appId table opts).steps =
      tenantSteps appId table opts.skipAppFilter ++ callerFilterSteps opts.filters ++
        orderSteps opts ++ limitSteps opts ++ rangeSteps opts := by
  unfold fetchAllQuery tenantSteps callerFilterSteps orderSteps limitSteps rangeSteps
  rw [inject_cond]
  cases hI : shouldInject table opts.skipAppFilter appId <;>
    cases hF : opts.filters <;>
    cases hO : opts.orderBy <;>
    cases hL : truthyNat opts.limit <;>
    cases hR : truthyNat opts.offset <;>
    simp [hI, hF, hO, hL, hR, Query.eq, Query.order, Query.limit, Query.range,
      Query.push, foldl_applyFilter_steps]

theorem fetchByIdQuery_steps (appId table : String) (id : Value) (opts : ByIdOptions) :
    (fetchByIdQuery appId table id opts).steps =
      [QueryStep.eqF (strOr opts.idColumn "id") id] ++
        tenantSteps appId table opts.skipAppFilter := by
  unfold fetchByIdQuery tenantSteps
  rw [inject_cond]
  cases hI : shouldInject table opts.skipAppFilter appId <;>
    simp [hI, Query.eq, Query.push]

theorem updateQuery_steps (appId table : String) (id : Value) (opts : ByIdOptions) :
    (updateQuery appId table id opts).steps =
      [QueryStep.eqF (strOr opts.idColumn "id") id] ++
        tenantSteps appId table opts.skipAppFilter := by
  unfold updateQuery tenantSteps
  rw [inject_cond]
  cases hI : shouldInject table opts.skipAppFilter appId <;>
    simp [hI, Query.eq, Query.push]

theorem updateWhereQuery_steps (appId table : String) (filters : Option (List Filter))
    (sel : Option String) (skip : Bool) :
    (updateWhereQuery appId table filters sel skip).steps =
      tenantSteps appId table skip ++ callerFilterSteps filters := by
  unfold updateWhereQuery tenantSteps callerFilterSteps
  rw [inject_cond]
  cases hI : shouldInject table skip appId <;>
    cases hF : filters <;>
    simp [hI, hF, Query.eq, Query.push, foldl_applyFilter_steps]

theorem removeQuery_steps (appId table : String) (id : Value)
    (idColumn : Option String) (skip : Bool) :
    (removeQuery appId table id idColumn skip).steps =
      [QueryStep.eqF (strOr idColumn "id") id] ++ tenantSteps appId table skip := by
  unfold removeQuery tenantSteps
  rw [inject_cond]
  cases hI : shouldInject table skip appId <;> simp [hI, Query.eq, Query.push]

theorem removeWhereQuery_steps (appId table : String) (filters : Option (List Filter))
    (skip : Bool) :
    (removeWhereQuery appId table filters skip).steps =
      tenantSteps appId table skip ++ callerFilterSteps filters := by
  unfold removeWhereQuery tenantSteps callerFilterSteps
  rw [inject_cond]
  cases hI : shouldInject table skip appId <;>
    cases hF : filters <;>
    simp [hI, hF, Query.eq, Query.push, foldl_applyFilter_steps]

theorem createSubmitted_spec (appId table : String) (record : Rec) (skip : Bool) :
    createSubmitted appId table record skip =
      (if shouldInject table skip appId then stampAppId record appId else record) := by
  unfold createSubmitted
  rw [inject_cond]

theorem createManySubmitted_spec (appId table : String) (records : List Rec)
    (skip : Bool) :
    createManySubmitted appId table records skip =
      (if shouldInject table skip appId then records.map (fun r => stampAppId r appId)
        else records) := by
  unfold createManySubmitted
  rw [inject_cond]

theorem upsertSubmitted_spec (appId table : String) (record : Rec) (skip : Bool) :
    upsertSubmitted appId table record skip =
      (if shouldInject table skip appId then stampAppId record appId else record) := by
  unfold upsertSubmitted
  rw [inject_cond]

/-! Run-semantics lemmas: every step only narrows, permutes or truncates
the rows it is given, so membership in the output implies membership in
the input; and an equals filter step forces its predicate on every output
row. -/

theorem mem_runStep {r : Rec} {rows : List Rec} (s : QueryStep)
    (h : r ∈ runStep rows s) : r ∈ rows := by
  cases s
  case orderF c asc =>
    simp only [runStep] at h
    exact (List.perm_insertionSort _ rows).mem_iff.mp h
  case limitF n =>
    simp only [runStep] at h
    exact List.take_subset n rows h
  case rangeF lo hi =>
    simp only [runStep] at h
    exact List.drop_subset lo rows (List.take_subset _ _ h)
  all_goals exact List.mem_of_mem_filter h

theorem mem_runSteps {r : Rec} {steps : List QueryStep} {rows : List Rec}
    (h : r ∈ runSteps steps rows) : r ∈ rows := by
  induction steps generalizing rows with
  | nil => exact h
  | cons s ss ih => exact mem_runStep s (ih h)

theorem runSteps_append (a b : List QueryStep) (rows : List Rec) :
    runSteps (a ++ b) rows = runSteps b (runSteps a rows) := by
  simp [runSteps, List.foldl_append]

theorem mem_runSteps_eq_head {r : Rec} {rest : List QueryStep} {rows : List Rec}
    {c : String} {v : Value}
    (h : r ∈ runSteps (QueryStep.eqF c v :: rest) rows) : getCol r c = some v := by
  have h1 : r ∈ runStep rows (QueryStep.eqF c v) :=
    @mem_runSteps r rest (runStep rows (QueryStep.eqF c v)) h
  simp only [runStep, List.mem_filter, rowPred, decide_eq_true_eq] at h1
  exact h1.2

theorem single_data_mem {rows : List Rec} {r : Rec}
    (h : (single rows).data = some r) : r ∈ rows := by
  cases rows with
  | nil => simp [single] at h
  | cons a t =>
    cases t with
    | nil =>
      simp [single] at h
      simp [h]
    | cons b t2 => simp [single] at h

theorem single_of_length_ne_one {rows : List Rec} (h : rows.length ≠ 1) :
    single rows = ⟨none, some pgrstNotFound⟩ := by
  cases rows with
  | nil => rfl
  | cons a t =>
    cases t with
    | nil => exact absurd rfl h
    | cons b t2 => rfl

theorem getCol_objSet_self (r : Rec) (c : String) (v : Value) :
    getCol (objSet r c v) c = some v := by
  induction r with
  | nil => simp [objSet, getCol]
  | cons p r ih =>
    by_cases h : p.1 = c
    · simpa [objSet, h] using ih
    · simpa [objSet, getCol, h] using ih

theorem getCol_stampAppId (r : Rec) (appId : String) :
    getCol (stampAppId r appId) "app_id" = some (Value.str appId) :=
  getCol_objSet_self r "app_id" (Value.str appId)

/-- A helper: every row surviving a run that contains an equals step
satisfies that step's predicate. -/
theorem mem_runSteps_eqF {r : Rec} {steps : List QueryStep} {rows : List Rec}
    {c : String} {v : Value} (hs : QueryStep.eqF c v ∈ steps)
    (h : r ∈ runSteps steps rows) : getCol r c = some v := by
  induction steps generalizing rows with
  | nil => cases hs
  | cons s ss ih =>
    rcases List.mem_cons.mp hs with heq | hmem
    · subst heq
      exact mem_runSteps_eq_head h
    · exact ih hmem h

/-! The claims. -/

/-- C5: the tenant equals-filter, or the tenant stamp for writes, is
applied if and only if the table is outside the fixed shared-table set,
the skipAppFilter override flag is not set, and the configured tenant
identifier is non-empty; the same three-way condition, stated by
shouldInject, governs fetchAll, fetchById, create, createMany, update,
updateWhere, remove, removeWhere, and upsert. -/
theorem tenant_injection_condition (appId table : String) (opts : QueryOptions)
    (bopts : ByIdOptions) (id : Value) (idCol : Option String) (record : Rec)
    (records : List Rec) (filters : Option (List Filter)) (sel : Option String)
    (skip : Bool) :
    (fetchAllQuery appId table opts).steps =
        tenantSteps appId table opts.skipAppFilter ++ callerFilterSteps opts.filters ++
          orderSteps opts ++ limitSteps opts ++ rangeSteps opts ∧
    (fetchByIdQuery appId table id bopts).steps =
        [QueryStep.eqF (strOr bopts.idColumn "id") id] ++
          tenantSteps appId table bopts.skipAppFilter ∧
    createSubmitted appId table record skip =
        (if shouldInject table skip appId then stampAppId record appId else record) ∧
    createManySubmitted appId table records skip =
        (if shouldInject table skip appId then records.map (fun r => stampAppId r appId)
          else records) ∧
    (updateQuery appId table id bopts).steps =
        [QueryStep.eqF (strOr bopts.idColumn "id") id] ++
          tenantSteps appId table bopts.skipAppFilter ∧
    (updateWhereQuery appId table filters sel skip).steps =
        tenantSteps appId table skip ++ callerFilterSteps filters ∧
    (removeQuery appId table id idCol skip).steps =
        [QueryStep.eqF (strOr idCol "id") id] ++ tenantSteps appId table skip ∧
    (removeWhereQuery appId table filters skip).steps =
        tenantSteps appId table skip ++ callerFilterSteps filters ∧
    upsertSubmitted appId table record skip =
        (if shouldInject table skip appId then stampAppId record appId else record) :=
  ⟨fetchAllQuery_steps appId table opts,
    fetchByIdQuery_steps appId table id bopts,
    createSubmitted_spec appId table record skip,
    createManySubmitted_spec appId table records skip,
    updateQuery_steps appId table id bopts,
    updateWhereQuery_steps appId table filters sel skip,
    removeQuery_steps appId table id idCol skip,
    removeWhereQuery_steps appId table filters skip,
    upsertSubmitted_spec appId table record skip⟩

/-- C6: fetchAll composes its query in the fixed sequence tenant filter,
caller filters, order, limit, offset; when an offset applies, the
inclusive range from offset to offset plus the page size minus one is
requested, the page size defaulting to 10 when the limit is absent; with
limit 10 and offset 20 the requested window is exactly the zero-indexed
positions 20 through 29 of the ordered result set. -/
theorem query_composition_and_pagination (appId table : String) (opts : QueryOptions) :
    (fetchAllQuery appId table opts).steps =
        tenantSteps appId table opts.skipAppFilter ++ callerFilterSteps opts.filters ++
          orderSteps opts ++ limitSteps opts ++ rangeSteps opts ∧
    (truthyNat opts.offset = true →
      rangeSteps opts =
        [QueryStep.rangeF (opts.offset.getD 0)
          (opts.offset.getD 0 + orNat opts.limit 10 - 1)]) ∧
    (opts.limit = some 10 → opts.offset = some 20 →
      rangeSteps opts = [QueryStep.rangeF 20 29]) ∧
    (∀ rows : List Rec, runStep rows (QueryStep.rangeF 20 29) = (rows.drop 20).take 10) := by
  refine ⟨fetchAllQuery_steps appId table opts, ?_, ?_, ?_⟩
  · intro h
    simp [rangeSteps, h]
  · intro hl ho
    simp [rangeSteps, hl, ho, truthyNat, orNat]
  · intro rows
    simp [runStep]

def w6opts : QueryOptions := ⟨none, none, some 10, some 20, none, false⟩

theorem query_composition_witness : rangeSteps w6opts = [QueryStep.rangeF 20 29] :=
  (query_composition_and_pagination "bookbuddy" "books" w6opts).2.2.1 rfl rfl

/-- C7: a filter triple whose operator is outside the recognized
vocabulary leaves the query unchanged: no predicate is added and no error
is raised. -/
theorem unrecognized_operator_noop (q : Query) (f : Filter)
    (h : f.operator ∉
      ["eq", "neq", "gt", "gte", "lt", "lte", "like", "ilike", "in", "contains"]) :
    applyFilter q f = q := by
  unfold applyFilter
  split <;> simp_all

def sampleQuery : Query := ⟨"books", "*", true, []⟩

theorem unrecognized_operator_witness :
    applyFilter sampleQuery ⟨"status", "foo", Value.str "x"⟩ = sampleQuery :=
  unrecognized_operator_noop sampleQuery ⟨"status", "foo", Value.str "x"⟩ (by decide)

/-- C8: subscribeToTable passes the server-side filter expression on the
tenant column exactly when the table is outside the shared-table set, the
override flag is not set and the configured tenant identifier is
non-empty; otherwise no filter expression is passed. -/
theorem subscription_filter_injection (appId table : String) (opts : SubOptions) :
    (subscribeToTable appId table opts).filter =
      (if shouldInject table opts.skipAppFilter appId then some ("app_id=eq." ++ appId)
        else none) := by
  unfold subscribeToTable
  rw [sub_cond]

/-- C10: an offset equal to 0 is falsy, so the query fetchAll issues for
an options bag with offset 0 is identical to the query issued for the same
bag with the offset omitted; no range window is applied. -/
theorem offset_zero_ignored (appId table : String) (sel : Option String)
    (ob : Option OrderBy) (lim : Option Nat) (fs : Option (List Filter)) (skip : Bool) :
    fetchAllQuery appId table ⟨sel, ob, lim, some 0, fs, skip⟩ =
      fetchAllQuery appId table ⟨sel, ob, lim, none, fs, skip⟩ := by
  unfold fetchAllQuery
  rfl

/-- C1: on a tenant-injected read, every record fetchAll or fetchById
returns carries the configured tenant identifier in its tenant column; in
particular a record created and stamped under tenant A is never returned
by fetchAll or fetchById run under a different tenant identifier. -/
theorem tenant_isolation_of_reads (appId A table : String) (opts : QueryOptions)
    (bopts : ByIdOptions) (id : Value) (store : Store) (r record : Rec) :
    (shouldInject table opts.skipAppFilter appId = true →
      r ∈ (fetchAll appId table opts store).data.getD [] →
      getCol r "app_id" = some (Value.str appId)) ∧
    (shouldInject table bopts.skipAppFilter appId = true →
      (fetchById appId table id bopts store).data = some r →
      getCol r "app_id" = some (Value.str appId)) ∧
    (A ≠ appId → shouldInject table false A = true →
      (shouldInject table opts.skipAppFilter appId = true →
        createSubmitted A table record false ∉
          (fetchAll appId table opts store).data.getD []) ∧
      (shouldInject table bopts.skipAppFilter appId = true →
        (fetchById appId table id bopts store).data ≠
          some (createSubmitted A table record false))) := by
  have pa : ∀ r' : Rec, shouldInject table opts.skipAppFilter appId = true →
      r' ∈ (fetchAll appId table opts store).data.getD [] →
      getCol r' "app_id" = some (Value.str appId) := by
    intro r' hinj hmem
    have hmem2 : r' ∈ runSteps (fetchAllQuery appId table opts).steps
        (storeRows store table) := by
      simpa [fetchAll] using hmem
    have hs : QueryStep.eqF "app_id" (Value.str appId) ∈
        (fetchAllQuery appId table opts).steps := by
      rw [fetchAllQuery_steps]
      simp [tenantSteps, hinj]
    exact mem_runSteps_eqF hs hmem2
  have pb : ∀ r' : Rec, shouldInject table bopts.skipAppFilter appId = true →
      (fetchById appId table id bopts store).data = some r' →
      getCol r' "app_id" = some (Value.str appId) := by
    intro r' hinj hdata
    have hmem : r' ∈ fetchByIdMatches appId table id bopts store :=
      single_data_mem hdata
    have hs : QueryStep.eqF "app_id" (Value.str appId) ∈
        (fetchByIdQuery appId table id bopts).steps := by
      rw [fetchByIdQuery_steps]
      simp [tenantSteps, hinj]
    exact mem_runSteps_eqF hs hmem
  refine ⟨pa r, pb r, ?_⟩
  intro hA hinjA
  have hstamp : getCol (createSubmitted A table record false) "app_id"
      = some (Value.str A) := by
    rw [createSubmitted_spec]
    simp [hinjA, getCol_stampAppId]
  have hne : some (Value.str A) ≠ some (Value.str appId) := by simp [hA]
  constructor
  · intro hinjB hmem
    have hcol := pa _ hinjB hmem
    rw [hstamp] at hcol
    exact hne hcol
  · intro hinjB hdata
    have hcol := pb _ hinjB hdata
    rw [hstamp] at hcol
    exact hne hcol

def wRecord : Rec := [("title", Value.str "X")]

def wStore : Store := [("books", [[("id", Value.str "1"), ("app_id", Value.str "bookbuddy")]])]

def wOpts : QueryOptions := ⟨none, none, none, none, none, false⟩

def wBOpts : ByIdOptions := ⟨none, none, false⟩

theorem tenant_isolation_witness :
    createSubmitted "otherapp" "books" wRecord false ∉
      (fetchAll "bookbuddy" "books" wOpts wStore).data.getD [] :=
  ((tenant_isolation_of_reads "bookbuddy" "otherapp" "books" wOpts wBOpts
      (Value.str "1") wStore [] wRecord).2.2 (by decide) (by decide)).1 (by decide)

/-- C2: on an isolated table with the override flag unset and a non-empty
tenant identifier, the record create or upsert submits to the backing
store carries the configured tenant identifier in its tenant column,
whatever the caller supplied for that column. -/
theorem stamp_integrity_of_writes (appId table : String) (record : Rec)
    (h1 : isIsolated table = true) (h2 : appId ≠ "") :
    getCol (createSubmitted appId table record false) "app_id"
        = some (Value.str appId) ∧
    getCol (upsertSubmitted appId table record false) "app_id"
        = some (Value.str appId) := by
  have hcond : shouldInject table false appId = true := by
    simp [shouldInject, h1, h2]
  constructor
  · rw [createSubmitted_spec]
    simp [hcond, getCol_stampAppId]
  · rw [upsertSubmitted_spec]
    simp [hcond, getCol_stampAppId]

theorem stamp_integrity_witness :
    getCol (createSubmitted "bookbuddy" "books"
        [("title", Value.str "X"), ("app_id", Value.str "evil")] false) "app_id"
      = some (Value.str "bookbuddy") ∧
    getCol (upsertSubmitted "bookbuddy" "books"
        [("title", Value.str "X"), ("app_id", Value.str "evil")] false) "app_id"
      = some (Value.str "bookbuddy") :=
  stamp_integrity_of_writes "bookbuddy" "books"
    [("title", Value.str "X"), ("app_id", Value.str "evil")] (by decide) (by decide)

/-- C3: a fetchById whose scoped id filter matches zero rows or more than
one row, and an update whose scoped id filter matches zero rows, both
return a null result together with a populated structured error; neither
reports success. -/
theorem zero_match_single_row (appId table : String) (id : Value) (bopts : ByIdOptions)
    (updates : Rec) (store : Store) :
    ((fetchByIdMatches appId table id bopts store).length ≠ 1 →
      (fetchById appId table id bopts store).data = none ∧
        (fetchById appId table id bopts store).error ≠ none) ∧
    (updateMatches appId table id bopts store = [] →
      (update appId table id updates bopts store).data = none ∧
        (update appId table id updates bopts store).error ≠ none) := by
  constructor
  · intro hf
    have h := single_of_length_ne_one hf
    unfold fetchById
    rw [h]
    simp
  · intro hu
    unfold update
    rw [hu]
    simp [single]

def wAmbStore : Store := [("books",
  [[("id", Value.str "1"), ("app_id", Value.str "bookbuddy"), ("title", Value.str "A")],
   [("id", Value.str "1"), ("app_id", Value.str "bookbuddy"), ("title", Value.str "B")]])]

theorem zero_match_witness :
    ((fetchById "bookbuddy" "books" (Value.str "1") wBOpts wAmbStore).data = none ∧
      (fetchById "bookbuddy" "books" (Value.str "1") wBOpts wAmbStore).error ≠ none) ∧
    ((update "bookbuddy" "books" (Value.str "9") [] wBOpts wAmbStore).data = none ∧
      (update "bookbuddy" "books" (Value.str "9") [] wBOpts wAmbStore).error ≠ none) :=
  ⟨(zero_match_single_row "bookbuddy" "books" (Value.str "1") wBOpts [] wAmbStore).1
      (by decide),
    (zero_match_single_row "bookbuddy" "books" (Value.str "9") wBOpts [] wAmbStore).2
      (by decide)⟩

def c4row : Rec := [("id", Value.str "1"), ("app_id", Value.str "otherapp")]

/-- C4 counterexample: a remove whose target id matches no row after
tenant scoping deletes nothing, yet its error component is null, not a
structured not-found error: the tenant bookbuddy removing id 1, which only
exists under tenant otherapp, matches zero rows and still reports plain
success. -/
theorem remove_zero_match_counterexample :
    removeMatches "bookbuddy" "books" (Value.str "1") none false [c4row] = [] ∧
    remove "bookbuddy" "books" (Value.str "1") none false [c4row] = ([c4row], none) := by
  decide

/-- C4 amended: a remove whose target id matches no row after tenant
scoping deletes nothing and returns a null error, that is, plain success
with zero rows affected; no structured not-found error is produced. -/
theorem remove_zero_match_amended (appId table : String) (id : Value)
    (idCol : Option String) (skip : Bool) (rows : List Rec)
    (h : removeMatches appId table id idCol skip rows = []) :
    remove appId table id idCol skip rows = (rows, none) := by
  unfold remove
  have h' : rows.filter (fun r =>
      (removeQuery appId table id idCol skip).steps.all (fun s => rowPred s r)) = [] := h
  have hall := List.filter_eq_nil_iff.mp h'
  have hkeep : rows.filter (fun r =>
      !((removeQuery appId table id idCol skip).steps.all (fun s => rowPred s r))) = rows := by
    refine List.filter_eq_self.mpr ?_
    intro a ha
    have hfa := hall a ha
    rw [Bool.not_eq_true] at hfa
    show (!((removeQuery appId table id idCol skip).steps.all (fun s => rowPred s a))) = true
    rw [hfa]
    rfl
  rw [hkeep]

theorem remove_amended_witness :
    remove "bookbuddy" "books" (Value.str "2") none false [c4row] = ([c4row], none) :=
  remove_zero_match_amended "bookbuddy" "books" (Value.str "2") none false [c4row]
    (by decide)

/-- C9 counterexample: the channel name is not an injective function of
the table and tenant pair: the pair with table a and tenant b_changes_c
and the pair with table a_changes_b and tenant c are different, yet both
yield the channel name a_changes_b_changes_c. -/
theorem channel_name_collision :
    (subscribeToTable "b_changes_c" "a" ⟨none, false⟩).channelName =
      (subscribeToTable "c" "a_changes_b" ⟨none, false⟩).channelName ∧
    ("a", "b_changes_c") ≠ (("a_changes_b", "c") : String × String) := by
  decide

/-- C9 amended: the channel name separates any two subscriptions that
share a component: for a fixed table, different tenants get different
channel names, and for a fixed tenant, different tables get different
channel names; full injectivity over both components fails. -/
theorem channel_name_distinct (a1 a2 t1 t2 : String) (o1 o2 : SubOptions)
    (h : (t1 = t2 ∧ a1 ≠ a2) ∨ (a1 = a2 ∧ t1 ≠ t2)) :
    (subscribeToTable a1 t1 o1).channelName ≠
      (subscribeToTable a2 t2 o2).channelName := by
  intro heq
  have heq2 : t1 ++ "_changes_" ++ a1 = t2 ++ "_changes_" ++ a2 := heq
  have hd := congrArg String.data heq2
  simp only [String.data_append] at hd
  rcases h with ⟨ht, ha⟩ | ⟨ha, ht⟩
  · subst ht
    exact ha (String.ext (List.append_cancel_left hd))
  · subst ha
    have h2 := List.append_cancel_right hd
    exact ht (String.ext (List.append_cancel_right h2))

theorem channel_name_distinct_witness :
    (subscribeToTable "bookbuddy" "books" ⟨none, false⟩).channelName ≠
      (subscribeToTable "otherapp" "books" ⟨none, false⟩).channelName :=
  channel_name_distinct "bookbuddy" "otherapp" "books" "books" ⟨none, false⟩
    ⟨none, false⟩ (Or.inl ⟨rfl, by decide⟩)

end BookBuddy
